/-
Verification of the asset-projection core of the shark-lifeplan-manager
application (`AssetStore` in `src/stores/AssetStore.js`).

Shallow embedding conventions:
* JavaScript numbers are modelled as rationals (`ℚ`); `Math.round` is
  Mathlib's `round` (both round halves toward positive infinity) and
  `Math.floor` is `Int.floor`.
* `new Date(s).getFullYear()` on date values is modelled by a calendar-date
  record carrying the year; `new Date(year, month, 1)` is the record
  `⟨year, month, 1⟩`.
* A JavaScript value that may be `undefined`/`null` is an `Option`.
* Code that can throw (destructuring `undefined`) returns an `Option`,
  with `none` for the thrown `TypeError`.
* `Math.exp` and the Box-Muller standard-normal draw of `normalRandom`
  (both transcendental / random, not representable in ℚ) enter the
  Monte-Carlo simulator as explicit function parameters.
-/
import Mathlib

namespace AssetStore

/-- A calendar date, as far as `AssetStore` observes it: the code only ever
reads the year (`getFullYear`) and builds dividend dates `new Date(year, month, 1)`. -/
structure CalDate where
  year : Int
  month : Nat
  day : Nat
deriving DecidableEq, Repr

/-- The `returns.capitalGain` settings of an asset. -/
structure CapitalGainSettings where
  annualRate : ℚ
  compoundingFrequency : String
deriving DecidableEq, Repr

/-- The `returns.incomeGain` settings of an asset. -/
structure IncomeGainSettings where
  dividendYield : ℚ
  paymentFrequency : String
  reinvestDividends : Bool
deriving DecidableEq, Repr

/-- The `returns` model of an asset.  `incomeGain` is optional:
`validateAsset` in `src/utils/validate.js` only validates it `if
(data.returns.incomeGain)`, so an asset without it is admissible input. -/
structure Returns where
  capitalGain : CapitalGainSettings
  incomeGain : Option IncomeGainSettings
deriving DecidableEq, Repr

/-- Result record of `calculateCapitalGain`. -/
structure CapitalGainResult where
  evaluationAmount : ℚ
  capitalGain : ℚ
deriving DecidableEq, Repr

/-- One entry of the `dividends` array produced by `calculateDividends`.
`amount` is `Math.round(dividendPerPayment)`, hence an integer. -/
structure Dividend where
  date : CalDate
  amount : ℤ
deriving DecidableEq, Repr

/-- One `yearlyPerformance` record.  The projected fields are produced by
`calculateYearPerformance` (all `Math.round`ed, hence integers); the
`actual*` fields do not exist on a freshly projected record (modelled as
`none`) and are set by `updateActualPerformance`. -/
structure YearlyPerformance where
  year : ℤ
  startValue : ℤ
  endValue : ℤ
  capitalGains : ℤ
  dividends : List Dividend
  totalDividends : ℤ
  actualEndValue : Option ℚ := none
  actualCapitalGains : Option ℚ := none
  actualDividends : Option (List Dividend) := none
  actualTotalDividends : Option ℚ := none
deriving DecidableEq, Repr

/-- Embeds `AssetStore.calculateCapitalGain(initialAmount, annualRate,
compoundingFrequency)`: the `switch` selects the period count and per-period
rate ("daily" → 365, "monthly" → 12, `"yearly"` and the `default` arm → 1),
then `finalAmount = initialAmount * Math.pow(1 + rate, periods)`. -/
def calculateCapitalGain (initialAmount annualRate : ℚ)
    (compoundingFrequency : String) : CapitalGainResult :=
  let pr : ℕ × ℚ :=
    if compoundingFrequency = "daily" then (365, annualRate / 365)
    else if compoundingFrequency = "monthly" then (12, annualRate / 12)
    else (1, annualRate)
  let finalAmount := initialAmount * (1 + pr.2) ^ pr.1
  { evaluationAmount := finalAmount, capitalGain := finalAmount - initialAmount }

/-- Embeds `AssetStore.calculateDividends(amount, dividendYield,
paymentFrequency, year)`: `paymentsPerYear` from the `switch`
("monthly" → 12, "quarterly" → 4, `"yearly"`/`default` → 1),
`dividendPerPayment = (amount * dividendYield) / paymentsPerYear`, and one
payment per `i < paymentsPerYear` dated
`new Date(year, Math.floor((12 / paymentsPerYear) * i), 1)` with
`amount: Math.round(dividendPerPayment)`. -/
def calculateDividends (amount dividendYield : ℚ) (paymentFrequency : String)
    (year : ℤ) : List Dividend :=
  let paymentsPerYear : ℕ :=
    if paymentFrequency = "monthly" then 12
    else if paymentFrequency = "quarterly" then 4
    else 1
  let dividendPerPayment := amount * dividendYield / (paymentsPerYear : ℚ)
  (List.range paymentsPerYear).map fun i =>
    { date := ⟨year, (Int.floor ((12 / (paymentsPerYear : ℚ)) * i)).toNat, 1⟩,
      amount := round dividendPerPayment }

/-- Embeds `AssetStore.calculateYearPerformance(year, startValue, returns)`.
The body destructures `returns.incomeGain` unconditionally
(`incomeGain: { dividendYield, paymentFrequency, reinvestDividends }`), so
when `incomeGain` is absent the destructuring throws a `TypeError`,
modelled as `none`. -/
def calculateYearPerformance (year : ℤ) (startValue : ℚ) (rts : Returns) :
    Option YearlyPerformance :=
  match rts.incomeGain with
  | none => none
  | some ig =>
    let capitalGainResult := calculateCapitalGain startValue
      rts.capitalGain.annualRate rts.capitalGain.compoundingFrequency
    let dividends := calculateDividends startValue ig.dividendYield
      ig.paymentFrequency year
    let totalDividends : ℤ := (dividends.map Dividend.amount).sum
    let endValue : ℚ :=
      if ig.reinvestDividends then
        capitalGainResult.evaluationAmount + (totalDividends : ℚ)
      else capitalGainResult.evaluationAmount
    some { year := year,
           startValue := round startValue,
           endValue := round endValue,
           capitalGains := round capitalGainResult.capitalGain,
           dividends := dividends,
           totalDividends := round ((totalDividends : ℤ) : ℚ) }

/-- The loop body of `initializeYearlyPerformance`: run
`calculateYearPerformance` for `n` consecutive years beginning at `year`,
threading `currentAmount = performance.endValue` from one iteration to the
next.  A thrown `TypeError` propagates (`none`). -/
def projectYears (rts : Returns) : ℤ → ℕ → ℚ → Option (List YearlyPerformance)
  | _, 0, _ => some []
  | year, n + 1, currentAmount => do
    let p ← calculateYearPerformance year currentAmount rts
    let rest ← projectYears rts (year + 1) n ((p.endValue : ℚ))
    pure (p :: rest)

/-- Embeds `AssetStore.initializeYearlyPerformance(startDate, maturityDate,
initialAmount, returns)`: `startYear = new Date(startDate).getFullYear()`,
`endYear = maturityDate ? new Date(maturityDate).getFullYear() : startYear + 50`,
then the `for (year = startYear; year <= endYear; year++)` loop — i.e.
`max 0 (endYear - startYear + 1)` iterations of `projectYears`. -/
def initializeYearlyPerformance (startDate : CalDate)
    (maturityDate : Option CalDate) (initialAmount : ℚ) (rts : Returns) :
    Option (List YearlyPerformance) :=
  let startYear := startDate.year
  let endYear := match maturityDate with
    | some m => m.year
    | none => startYear + 50
  projectYears rts startYear (endYear + 1 - startYear).toNat initialAmount

/-- A stored asset.  `yearlyPerformance` holds whatever list the store last
wrote (fresh projection, rehydrated data, …). -/
structure Asset where
  id : String
  name : String
  category : String
  startDate : CalDate
  maturityDate : Option CalDate
  initialAmount : ℚ
  returns : Returns
  yearlyPerformance : List YearlyPerformance
deriving DecidableEq, Repr

/-- The `actualData` payload of `updateActualPerformance`. -/
structure ActualData where
  endValue : ℚ
  capitalGains : ℚ
  dividends : List Dividend
  totalDividends : ℚ
deriving DecidableEq, Repr

/-- The record written over the matched entry by `updateActualPerformance`:
`{ ...old, actualEndValue: actualData.endValue, ... }`. -/
def setActualFields (p : YearlyPerformance) (ad : ActualData) : YearlyPerformance :=
  { p with actualEndValue := some ad.endValue,
           actualCapitalGains := some ad.capitalGains,
           actualDividends := some ad.dividends,
           actualTotalDividends := some ad.totalDividends }

/-- The `findIndex`-and-assign step of `updateActualPerformance`: locate the
first record with `p.year === year` and replace it with `setActualFields`;
when `findIndex` returns `-1` nothing happens. -/
def patchYearlyPerformance (year : ℤ) (ad : ActualData) :
    List YearlyPerformance → List YearlyPerformance
  | [] => []
  | p :: rest =>
    if p.year = year then setActualFields p ad :: rest
    else p :: patchYearlyPerformance year ad rest

/-- Embeds `AssetStore.updateActualPerformance(id, year, actualData)` on an
asset that exists in the store. -/
def updateActualPerformance (a : Asset) (year : ℤ) (ad : ActualData) : Asset :=
  { a with yearlyPerformance := patchYearlyPerformance year ad a.yearlyPerformance }

/-- The `maturityDate` entry of an `updateAsset` payload.  JavaScript
distinguishes a key that is absent from the object, a key present with value
`undefined`, a key present with value `null`, and a key holding a date: the
object spread `{ ...asset, ...data }` only keeps the old value in the first
case, while the recompute guard `data.maturityDate !== undefined` fires only
in the last two cases. -/
inductive MaturityField where
  | absent
  | undef
  | null
  | set (d : CalDate)
deriving DecidableEq, Repr

/-- An `updateAsset` payload.  For fields other than `maturityDate`,
`none` models a key that is absent from the payload (a present key with a
meaningful value is `some`). -/
structure UpdateData where
  name : Option String := none
  category : Option String := none
  initialAmount : Option ℚ := none
  returns : Option Returns := none
  startDate : Option CalDate := none
  maturityDate : MaturityField := .absent
  yearlyPerformance : Option (List YearlyPerformance) := none
deriving Repr

/-- The `maturityDate` component of the spread `{ ...asset, ...data }`. -/
def mergeMaturity (old : Option CalDate) : MaturityField → Option CalDate
  | .absent => old
  | .undef => none
  | .null => none
  | .set d => some d

/-- The recompute guard of `updateAsset`:
`data.initialAmount !== undefined || data.returns !== undefined ||
data.startDate !== undefined || data.maturityDate !== undefined`. -/
def triggersRecompute (d : UpdateData) : Bool :=
  d.initialAmount.isSome || d.returns.isSome || d.startDate.isSome ||
    (match d.maturityDate with
     | .null => true
     | .set _ => true
     | _ => false)

/-- Embeds the body of `AssetStore.updateAsset(id, data)` for an asset that
exists in the store: build `updatedAsset = { ...asset, ...data }`, and when
the recompute guard fires, replace `updatedAsset.yearlyPerformance` with a
fresh `initializeYearlyPerformance` of the merged fields.  `none` models the
`TypeError` thrown inside the recompute when the merged `returns` has no
`incomeGain` (the store is then left unchanged by the aborted call). -/
def applyUpdate (a : Asset) (d : UpdateData) : Option Asset :=
  let merged : Asset :=
    { a with
      name := d.name.getD a.name,
      category := d.category.getD a.category,
      initialAmount := d.initialAmount.getD a.initialAmount,
      returns := d.returns.getD a.returns,
      startDate := d.startDate.getD a.startDate,
      maturityDate := mergeMaturity a.maturityDate d.maturityDate,
      yearlyPerformance := d.yearlyPerformance.getD a.yearlyPerformance }
  if triggersRecompute d then
    (initializeYearlyPerformance merged.startDate merged.maturityDate
        merged.initialAmount merged.returns).map
      fun yp => { merged with yearlyPerformance := yp }
  else some merged

/-- Insert `x` into an already ascending list, keeping it ascending. -/
def insertAscending (x : ℚ) : List ℚ → List ℚ
  | [] => [x]
  | y :: ys => if x ≤ y then x :: y :: ys else y :: insertAscending x ys

/-- Embeds `finalValues.sort((a, b) => a - b)`: sort ascending (insertion
sort; any ascending sort models the JS comparator sort). -/
def sortAscending : List ℚ → List ℚ
  | [] => []
  | x :: xs => insertAscending x (sortAscending xs)

/-- Result of `runMonteCarloSimulation`.  The percentile fields are
`sortedArray[index]` reads, which in JavaScript evaluate to `undefined`
(`none`) when the index is out of bounds. -/
structure SimulationResult where
  bestCase : Option ℚ
  expected : Option ℚ
  worstCase : Option ℚ
  paths : List (List ℚ)
deriving DecidableEq, Repr

/-- The index computed by `AssetStore.getPercentile`:
`Math.floor(sortedArray.length * percentile)`. -/
def getPercentileIndex (len : ℕ) (percentile : ℚ) : ℕ :=
  (Int.floor ((len : ℚ) * percentile)).toNat

/-- Embeds `AssetStore.getPercentile(sortedArray, percentile)`:
`sortedArray[Math.floor(sortedArray.length * percentile)]`. -/
def getPercentile (sortedArray : List ℚ) (percentile : ℚ) : Option ℚ :=
  sortedArray.get? (getPercentileIndex sortedArray.length percentile)

/-- The fixed `volatility = 0.15` of `runMonteCarloSimulation`. -/
def volatility : ℚ := 15 / 100

/-- One `randomReturn` draw:
`Math.exp(annualRate - 0.5 * volatility * volatility + volatility * this.normalRandom()) - 1`,
with `Math.exp` passed in as `expF` and the Box-Muller normal variate as `z`. -/
def randomReturn (expF : ℚ → ℚ) (annualRate z : ℚ) : ℚ :=
  expF (annualRate - 1 / 2 * volatility * volatility + volatility * z) - 1

/-- The `value` after `y` steps of the inner `for (year = 1; year <= years; …)`
loop of one Monte-Carlo iteration; `normal y` is the `normalRandom()` draw of
step `y`. -/
def mcValue (expF : ℚ → ℚ) (normal : ℕ → ℚ) (annualRate v0 : ℚ) : ℕ → ℚ
  | 0 => v0
  | y + 1 => mcValue expF normal annualRate v0 y *
      (1 + randomReturn expF annualRate (normal (y + 1)))

/-- One Monte-Carlo `path`: `[value]` pushed before the loop, then one entry
per loop step — `years + 1` entries in total. -/
def mcPath (expF : ℚ → ℚ) (normal : ℕ → ℚ) (annualRate v0 : ℚ) (years : ℕ) :
    List ℚ :=
  (List.range (years + 1)).map (mcValue expF normal annualRate v0)

/-- Embeds `AssetStore.runMonteCarloSimulation(assetId, years, iterations)`.
The store is an association list keyed by asset id; the method never writes
to it, so it is returned unchanged alongside the result.  `years` and
`iterations` are signed (the JS loops run `max 0` times on non-positive
bounds).  `expF` models `Math.exp` and `normal i y` the `normalRandom()`
draw of iteration `i`, step `y`.  The final values are sorted ascending
(`(a, b) => a - b`) and the three percentiles read via `getPercentile`. -/
def runMonteCarloSimulation (assets : List (String × Asset)) (assetId : String)
    (years iterations : ℤ) (expF : ℚ → ℚ) (normal : ℕ → ℕ → ℚ) :
    Option SimulationResult × List (String × Asset) :=
  match List.lookup assetId assets with
  | none => (none, assets)
  | some asset =>
    let annualRate := asset.returns.capitalGain.annualRate
    let results := (List.range iterations.toNat).map
      fun i => mcPath expF (normal i) annualRate asset.initialAmount years.toNat
    let finalValues := results.map fun path => path.getLastD 0
    let sortedFinal := sortAscending finalValues
    (some { bestCase := getPercentile sortedFinal (95 / 100),
            expected := getPercentile sortedFinal (1 / 2),
            worstCase := getPercentile sortedFinal (5 / 100),
            paths := results },
     assets)

/-! ### Concrete fixtures used by witnesses and counterexamples -/

/-- A return model with zero capital-gain rate and zero dividend yield
(yearly compounding/payment, no reinvestment). -/
def RTS0 : Returns := ⟨⟨0, "yearly"⟩, some ⟨0, "yearly", false⟩⟩

/-- The record the projector produces for one year under `RTS0` when fed the
whole-number amount `k`: value unchanged, no gains, a single zero dividend. -/
def flatRecord (year k : ℤ) : YearlyPerformance :=
  ⟨year, k, k, 0, [⟨⟨year, 0, 1⟩, 0⟩], 0, none, none, none, none⟩

/-- An asset created on 2024-01-01 with maturity 2026, principal 100, under
`RTS0`; its `yearlyPerformance` is the fresh projection (3 records,
2024–2026 — see `initializeYearlyPerformance_asset0`). -/
def asset0 : Asset :=
  ⟨"a1", "fund", "stocks", ⟨2024, 0, 1⟩, some ⟨2026, 0, 1⟩, 100, RTS0,
    [flatRecord 2024 100, flatRecord 2025 100, flatRecord 2026 100]⟩

/-- An `updateAsset` payload editing only `initialAmount` (to 200). -/
def updateW : UpdateData := { initialAmount := some 200 }

/-- State of `asset0` after `updateAsset` with `updateW`: merged `initialAmount` 200
and a freshly recomputed projection. -/
def asset1 : Asset :=
  { asset0 with
    initialAmount := 200
    yearlyPerformance :=
      [flatRecord 2024 200, flatRecord 2025 200, flatRecord 2026 200] }

/-- A concrete reconciliation payload. -/
def AD0 : ActualData := ⟨95, 7, [⟨⟨2025, 0, 1⟩, 4⟩], 4⟩

/-! ### Theorems -/

/-- C3: `calculateCapitalGain(startValue, annualRate, compoundingFrequency)`
returns `evaluationAmount = startValue * (1 + r)^n` and
`capitalGain = evaluationAmount - startValue` with no rounding, where
`(n, r)` is `(365, rate/365)` for "daily", `(12, rate/12)` for "monthly",
and `(1, rate)` for "yearly" and for every unrecognized frequency; and
`calculateCapitalGain(1000, 0.12, "monthly")` gives
`evaluationAmount ≈ 1126.83`, `capitalGain ≈ 126.83` within 0.01. -/
theorem calculateCapitalGain_spec :
    (∀ s r : ℚ, calculateCapitalGain s r "daily" =
      ⟨s * (1 + r / 365) ^ 365, s * (1 + r / 365) ^ 365 - s⟩) ∧
    (∀ s r : ℚ, calculateCapitalGain s r "monthly" =
      ⟨s * (1 + r / 12) ^ 12, s * (1 + r / 12) ^ 12 - s⟩) ∧
    (∀ s r : ℚ, calculateCapitalGain s r "yearly" =
      ⟨s * (1 + r) ^ 1, s * (1 + r) ^ 1 - s⟩) ∧
    (∀ (s r : ℚ) (f : String), f ≠ "daily" → f ≠ "monthly" →
      calculateCapitalGain s r f = ⟨s * (1 + r) ^ 1, s * (1 + r) ^ 1 - s⟩) ∧
    |(calculateCapitalGain 1000 (12 / 100) "monthly").evaluationAmount -
        112683 / 100| < 1 / 100 ∧
    |(calculateCapitalGain 1000 (12 / 100) "monthly").capitalGain -
        12683 / 100| < 1 / 100 := by
  have e : calculateCapitalGain 1000 (12 / 100) "monthly" =
      ⟨1000 * (1 + 12 / 100 / 12) ^ 12, 1000 * (1 + 12 / 100 / 12) ^ 12 - 1000⟩ := rfl
  refine ⟨fun s r => ?_, fun s r => ?_, fun s r => ?_,
    fun s r f h1 h2 => ?_, ?_, ?_⟩
  · simp [calculateCapitalGain]
  · simp [calculateCapitalGain]
  · simp [calculateCapitalGain]
  · simp [calculateCapitalGain, h1, h2]
  · rw [e]; norm_num [abs_lt]
  · rw [e]; norm_num [abs_lt]

/-- Witness for C3: the unrecognized-frequency arm at a concrete input. -/
theorem calculateCapitalGain_spec_witness :
    calculateCapitalGain 2 3 "weekly" = ⟨2 * (1 + 3) ^ 1, 2 * (1 + 3) ^ 1 - 2⟩ :=
  calculateCapitalGain_spec.2.2.2.1 2 3 "weekly" (by decide) (by decide)

/-- C4: for every `amount ≥ 0`, `dividendYield ≥ 0` and year,
`calculateDividends` with `paymentFrequency = "quarterly"` returns exactly 4
payments, payment `i` dated the 1st of month `floor(12/4 * i)` (months
0, 3, 6, 9), each of amount `round(amount * dividendYield / 4)`, rounded
independently per payment. -/
theorem calculateDividends_quarterly_spec (amount dividendYield : ℚ)
    (year : ℤ) (h1 : 0 ≤ amount) (h2 : 0 ≤ dividendYield) :
    calculateDividends amount dividendYield "quarterly" year =
      [⟨⟨year, 0, 1⟩, round (amount * dividendYield / 4)⟩,
       ⟨⟨year, 3, 1⟩, round (amount * dividendYield / 4)⟩,
       ⟨⟨year, 6, 1⟩, round (amount * dividendYield / 4)⟩,
       ⟨⟨year, 9, 1⟩, round (amount * dividendYield / 4)⟩] := by
  have h : calculateDividends amount dividendYield "quarterly" year =
      (List.range 4).map fun i =>
        ⟨⟨year, (Int.floor ((12 / ((4 : ℕ) : ℚ)) * i)).toNat, 1⟩,
          round (amount * dividendYield / ((4 : ℕ) : ℚ))⟩ := rfl
  rw [h]
  simp [List.range_succ]
  norm_num
  decide

/-- Witness for C4: quarterly dividends of a 2% yield on 1000. -/
theorem calculateDividends_quarterly_spec_witness :
    calculateDividends 1000 (2 / 100) "quarterly" 2024 =
      [⟨⟨2024, 0, 1⟩, round ((1000 : ℚ) * (2 / 100) / 4)⟩,
       ⟨⟨2024, 3, 1⟩, round ((1000 : ℚ) * (2 / 100) / 4)⟩,
       ⟨⟨2024, 6, 1⟩, round ((1000 : ℚ) * (2 / 100) / 4)⟩,
       ⟨⟨2024, 9, 1⟩, round ((1000 : ℚ) * (2 / 100) / 4)⟩] :=
  calculateDividends_quarterly_spec 1000 (2 / 100) 2024 (by norm_num) (by norm_num)

/-- C10: for every asset id not present in the store,
`runMonteCarloSimulation` returns `null` (no result, no exception) and
leaves the stored assets unchanged. -/
theorem runMonteCarloSimulation_unknown_asset
    (assets : List (String × Asset)) (assetId : String) (years iterations : ℤ)
    (expF : ℚ → ℚ) (normal : ℕ → ℕ → ℚ)
    (h : List.lookup assetId assets = none) :
    runMonteCarloSimulation assets assetId years iterations expF normal =
      (none, assets) := by
  simp [runMonteCarloSimulation, h]

/-- Witness for C10: simulating an id absent from a concrete store. -/
theorem runMonteCarloSimulation_unknown_asset_witness :
    runMonteCarloSimulation [("a1", asset0)] "missing" 10 1000 id
      (fun _ _ => 0) = (none, [("a1", asset0)]) :=
  runMonteCarloSimulation_unknown_asset [("a1", asset0)] "missing" 10 1000 id
    (fun _ _ => 0) (by decide)

/-- For a positive length and a percentile below 1, the index
`Math.floor(length * percentile)` is strictly below the length. -/
theorem getPercentileIndex_lt (n : ℕ) (p : ℚ) (hn : 1 ≤ n) (hp : p < 1) :
    getPercentileIndex n p < n := by
  unfold getPercentileIndex
  have hn0 : (0 : ℚ) < n := by exact_mod_cast hn
  have hq : (n : ℚ) * p < (n : ℚ) := by
    calc (n : ℚ) * p < (n : ℚ) * 1 := mul_lt_mul_of_pos_left hp hn0
    _ = n := mul_one _
  have hf : Int.floor ((n : ℚ) * p) < (n : ℤ) := Int.floor_lt.mpr (by exact_mod_cast hq)
  omega

/-- C9, counterexample: the claim that for some sample count `length ≥ 1`
the index `floor(length * p)` can equal `length` for one of
p ∈ {0.95, 0.5, 0.05} is false: the index is always strictly in bounds for
a nonempty list. -/
theorem getPercentileIndex_never_equals_length :
    ¬ ∃ n : ℕ, 1 ≤ n ∧ (getPercentileIndex n (95 / 100) = n ∨
      getPercentileIndex n (1 / 2) = n ∨ getPercentileIndex n (5 / 100) = n) := by
  rintro ⟨n, hn, hc⟩
  rcases hc with h | h | h
  · have := getPercentileIndex_lt n (95 / 100) hn (by norm_num); omega
  · have := getPercentileIndex_lt n (1 / 2) hn (by norm_num); omega
  · have := getPercentileIndex_lt n (5 / 100) hn (by norm_num); omega

/-- C9, amended: percentile extraction reads the sorted values at index
`floor(length * p)`; for every length ≥ 1 and each of the three percentiles
used by the simulator that index is strictly less than the length, so the
read is in bounds; the unguarded out-of-bounds read occurs only for the
empty list (iterations ≤ 0), where `getPercentile` yields `undefined`. -/
theorem getPercentile_in_bounds (l : List ℚ) (p : ℚ)
    (hp : p = 95 / 100 ∨ p = 1 / 2 ∨ p = 5 / 100) (hl : 1 ≤ l.length) :
    getPercentileIndex l.length p < l.length ∧
    (getPercentile l p).isSome = true ∧
    getPercentile ([] : List ℚ) p = none := by
  have hp1 : p < 1 := by rcases hp with h | h | h <;> norm_num [h]
  have hidx := getPercentileIndex_lt l.length p hl hp1
  refine ⟨hidx, ?_, rfl⟩
  simp [getPercentile, List.getElem?_eq_getElem hidx]

/-- Witness for C9's amended theorem on a two-element list. -/
theorem getPercentile_in_bounds_witness :
    getPercentileIndex (List.length [(3 : ℚ), 7]) (95 / 100) <
      List.length [(3 : ℚ), 7] ∧
    (getPercentile [(3 : ℚ), 7] (95 / 100)).isSome = true ∧
    getPercentile ([] : List ℚ) (95 / 100) = none :=
  getPercentile_in_bounds [3, 7] (95 / 100) (Or.inl rfl) (by decide)

/-- A projection step over a return model without `incomeGain` throws on
its very first year, so any run of at least one year yields no list. -/
theorem projectYears_eq_none (rts : Returns) (h : rts.incomeGain = none)
    (year : ℤ) (n : ℕ) (hn : 0 < n) (amount : ℚ) :
    projectYears rts year n amount = none := by
  cases n with
  | zero => exact absurd hn (lt_irrefl 0)
  | succ m => simp [projectYears, calculateYearPerformance, h]

/-- C2: the claimed scenario (initialAmount 100000, start 2024, no maturity,
5% yearly compounding, `incomeGain` absent) does not produce a record: the
unconditional destructuring of `returns.incomeGain` throws a `TypeError`
(first two conjuncts).  The numbers the claim states are exactly what the
code produces once an `incomeGain` with zero yield is present (third
conjunct), confirming the intended arithmetic. -/
theorem calculateYearPerformance_absent_incomeGain_throws :
    initializeYearlyPerformance ⟨2024, 0, 1⟩ none 100000
      ⟨⟨5 / 100, "yearly"⟩, none⟩ = none ∧
    calculateYearPerformance 2024 100000 ⟨⟨5 / 100, "yearly"⟩, none⟩ = none ∧
    calculateYearPerformance 2024 100000
        ⟨⟨5 / 100, "yearly"⟩, some ⟨0, "yearly", false⟩⟩ =
      some ⟨2024, 100000, 105000, 5000, [⟨⟨2024, 0, 1⟩, 0⟩], 0,
        none, none, none, none⟩ := by
  refine ⟨?_, rfl, ?_⟩
  · simp only [initializeYearlyPerformance]
    exact projectYears_eq_none _ rfl _ _ (by decide) _
  · simp [calculateYearPerformance, calculateCapitalGain, calculateDividends,
      List.range_succ]
    norm_num [round_eq]

/-- C5: with `incomeGain` present, the record computed with
`reinvestDividends = true` has `endValue = round(evaluationAmount) + D`
where `D` is that year's `totalDividends` (an integer, so the equality is
exact, within any rounding tolerance), and with `reinvestDividends = false`
(all else equal) `endValue = round(evaluationAmount)`, excluding `D`; in
both cases `totalDividends` is the same sum of per-payment amounts. -/
theorem calculateYearPerformance_reinvest_additivity
    (year : ℤ) (s : ℚ) (cg : CapitalGainSettings) (ig : IncomeGainSettings)
    (hs : 0 ≤ s) :
    (calculateYearPerformance year s
        ⟨cg, some { ig with reinvestDividends := true }⟩).map
        (fun p => (p.endValue, p.totalDividends)) =
      some (round (calculateCapitalGain s cg.annualRate
            cg.compoundingFrequency).evaluationAmount +
          ((calculateDividends s ig.dividendYield ig.paymentFrequency year).map
            Dividend.amount).sum,
        ((calculateDividends s ig.dividendYield ig.paymentFrequency year).map
          Dividend.amount).sum) ∧
    (calculateYearPerformance year s
        ⟨cg, some { ig with reinvestDividends := false }⟩).map
        (fun p => (p.endValue, p.totalDividends)) =
      some (round (calculateCapitalGain s cg.annualRate
          cg.compoundingFrequency).evaluationAmount,
        ((calculateDividends s ig.dividendYield ig.paymentFrequency year).map
          Dividend.amount).sum) := by
  constructor
  · simp [calculateYearPerformance]
    rw [← List.map_map, ← Int.cast_list_sum]
    exact ⟨round_add_int _ _, round_intCast _⟩
  · simp [calculateYearPerformance]
    rw [← List.map_map, ← Int.cast_list_sum]
    exact round_intCast _

/-- Witness for C5: a 5% yearly-compounded asset of 1000 with a 2%
quarterly dividend yield. -/
theorem calculateYearPerformance_reinvest_additivity_witness :
    (calculateYearPerformance 2024 1000
        ⟨⟨5 / 100, "yearly"⟩, some ⟨2 / 100, "quarterly", true⟩⟩).map
        (fun p => (p.endValue, p.totalDividends)) =
      some (round (calculateCapitalGain 1000 (5 / 100) "yearly").evaluationAmount +
          ((calculateDividends 1000 (2 / 100) "quarterly" 2024).map
            Dividend.amount).sum,
        ((calculateDividends 1000 (2 / 100) "quarterly" 2024).map
          Dividend.amount).sum) ∧
    (calculateYearPerformance 2024 1000
        ⟨⟨5 / 100, "yearly"⟩, some ⟨2 / 100, "quarterly", false⟩⟩).map
        (fun p => (p.endValue, p.totalDividends)) =
      some (round (calculateCapitalGain 1000 (5 / 100) "yearly").evaluationAmount,
        ((calculateDividends 1000 (2 / 100) "quarterly" 2024).map
          Dividend.amount).sum) :=
  calculateYearPerformance_reinvest_additivity 2024 1000 ⟨5 / 100, "yearly"⟩
    ⟨2 / 100, "quarterly", true⟩ (by norm_num)

/-- Unfolding lemma: a projection over zero years is the empty list. -/
theorem projectYears_zero (rts : Returns) (year : ℤ) (amount : ℚ) :
    projectYears rts year 0 amount = some [] := rfl

/-- Unfolding lemma: one loop iteration of the projection driver. -/
theorem projectYears_succ (rts : Returns) (year : ℤ) (n : ℕ) (amount : ℚ) :
    projectYears rts year (n + 1) amount =
      (calculateYearPerformance year amount rts).bind fun p =>
        (projectYears rts (year + 1) n ((p.endValue : ℚ))).bind fun rest =>
          some (p :: rest) := rfl

/-- A successfully projected record's `startValue` is the rounded amount the
projector was fed. -/
theorem calculateYearPerformance_startValue (year : ℤ) (s : ℚ) (rts : Returns)
    (p : YearlyPerformance) (h : calculateYearPerformance year s rts = some p) :
    p.startValue = round s := by
  unfold calculateYearPerformance at h
  cases hig : rts.incomeGain with
  | none => rw [hig] at h; cases h
  | some ig =>
    rw [hig] at h
    simp only [Option.some.injEq] at h
    subst h
    rfl

/-- The head of a successful projection run has `startValue = round amount`. -/
theorem projectYears_head (rts : Returns) (year : ℤ) (n : ℕ) (amount : ℚ)
    (l : List YearlyPerformance) (q : YearlyPerformance)
    (h : projectYears rts year n amount = some l) (hq : l.get? 0 = some q) :
    q.startValue = round amount := by
  cases n with
  | zero =>
    rw [projectYears_zero] at h
    simp only [Option.some.injEq] at h
    subst h
    simp at hq
  | succ m =>
    rw [projectYears_succ] at h
    cases hc : calculateYearPerformance year amount rts with
    | none => rw [hc] at h; cases h
    | some p =>
      rw [hc] at h
      simp only [Option.some_bind] at h
      cases hr : projectYears rts (year + 1) m ((p.endValue : ℚ)) with
      | none => rw [hr] at h; cases h
      | some rest =>
        rw [hr] at h
        simp only [Option.some_bind, Option.some.injEq] at h
        subst h
        simp only [List.get?, Option.some.injEq] at hq
        rw [← hq]
        exact calculateYearPerformance_startValue year amount rts p hc

/-- Chain invariant for any successful projection run: each record's
`startValue` equals the previous record's `endValue` (the carried amount is
the rounded previous end value, and rounding an integer is the identity). -/
theorem projectYears_chain (rts : Returns) :
    ∀ (n : ℕ) (year : ℤ) (amount : ℚ) (l : List YearlyPerformance),
      projectYears rts year n amount = some l →
      ∀ i p q, l.get? i = some p → l.get? (i + 1) = some q →
        q.startValue = p.endValue := by
  intro n
  induction n with
  | zero =>
    intro year amount l h i p q hp _
    rw [projectYears_zero] at h
    simp only [Option.some.injEq] at h
    subst h
    simp at hp
  | succ m ih =>
    intro year amount l h i p q hp hq
    rw [projectYears_succ] at h
    cases hc : calculateYearPerformance year amount rts with
    | none => rw [hc] at h; cases h
    | some p0 =>
      rw [hc] at h
      simp only [Option.some_bind] at h
      cases hr : projectYears rts (year + 1) m ((p0.endValue : ℚ)) with
      | none => rw [hr] at h; cases h
      | some rest =>
        rw [hr] at h
        simp only [Option.some_bind, Option.some.injEq] at h
        subst h
        cases i with
        | zero =>
          simp only [List.get?, Option.some.injEq] at hp
          have h1 : q.startValue = round ((p0.endValue : ℤ) : ℚ) :=
            projectYears_head rts (year + 1) m _ rest q hr (by simpa using hq)
          rw [h1, round_intCast, hp]
        | succ j =>
          exact ih (year + 1) _ rest hr j p q (by simpa using hp) (by simpa using hq)

/-- C1, amended: for every sequence produced by the lifetime projection,
consecutive records satisfy `performance[N+1].startValue ==
performance[N].endValue`, and the first record's `startValue` equals
`Math.round(initialAmount)` (hence equals `initialAmount` itself whenever
the initial amount is a whole number). -/
theorem initializeYearlyPerformance_chain (startDate : CalDate)
    (maturityDate : Option CalDate) (initialAmount : ℚ) (rts : Returns)
    (l : List YearlyPerformance)
    (h : initializeYearlyPerformance startDate maturityDate initialAmount rts =
      some l) :
    (∀ i p q, l.get? i = some p → l.get? (i + 1) = some q →
      q.startValue = p.endValue) ∧
    (∀ p, l.get? 0 = some p → p.startValue = round initialAmount) := by
  simp only [initializeYearlyPerformance] at h
  exact ⟨projectYears_chain rts _ _ _ l h,
    fun p hp => projectYears_head rts _ _ _ l p h hp⟩

/-- Evaluation of one projected year under `RTS0` at a whole-number amount:
zero rates leave the value unchanged. -/
theorem calculateYearPerformance_RTS0 (year k : ℤ) :
    calculateYearPerformance year (k : ℚ) RTS0 = some (flatRecord year k) := by
  simp [calculateYearPerformance, RTS0, calculateCapitalGain, calculateDividends,
    List.range_succ, round_intCast, flatRecord]

/-- Evaluation of a whole `RTS0` projection run at a whole-number amount. -/
theorem projectYears_RTS0 (k : ℤ) :
    ∀ (n : ℕ) (year : ℤ),
      projectYears RTS0 year n (k : ℚ) =
        some ((List.range n).map fun i : ℕ => flatRecord (year + (i : ℤ)) k) := by
  intro n
  induction n with
  | zero => intro year; simp [projectYears_zero]
  | succ m ih =>
    intro year
    rw [projectYears_succ, calculateYearPerformance_RTS0 year k]
    simp only [Option.some_bind]
    rw [show ((flatRecord year k).endValue : ℚ) = (k : ℚ) from rfl, ih (year + 1)]
    simp only [Option.some_bind, Option.some.injEq]
    rw [List.range_succ_eq_map, List.map_cons, List.map_map]
    simp only [List.cons.injEq]
    refine ⟨by simp [flatRecord], List.map_congr_left fun i _ => ?_⟩
    simp only [Function.comp_apply, flatRecord]
    have hy : year + ((i + 1 : ℕ) : ℤ) = year + 1 + (i : ℤ) := by push_cast; ring
    rw [show (Nat.succ i : ℤ) = ((i + 1 : ℕ) : ℤ) from rfl, hy]

/-- The fixture projection behind `asset0` (and `asset1`): three flat
records for 2024–2026. -/
theorem initializeYearlyPerformance_flat3 (k : ℤ) :
    initializeYearlyPerformance ⟨2024, 0, 1⟩ (some ⟨2026, 0, 1⟩) (k : ℚ) RTS0 =
      some [flatRecord 2024 k, flatRecord 2025 k, flatRecord 2026 k] := by
  have h : initializeYearlyPerformance ⟨2024, 0, 1⟩ (some ⟨2026, 0, 1⟩) (k : ℚ)
      RTS0 = projectYears RTS0 2024 3 (k : ℚ) := rfl
  rw [h, projectYears_RTS0 k 3 2024]
  norm_num [List.range_succ]

/-- The stored `yearlyPerformance` of `asset0` is exactly the fresh projection of
its own fields. -/
theorem initializeYearlyPerformance_asset0 :
    initializeYearlyPerformance ⟨2024, 0, 1⟩ (some ⟨2026, 0, 1⟩) 100 RTS0 =
      some [flatRecord 2024 100, flatRecord 2025 100, flatRecord 2026 100] := by
  have h := initializeYearlyPerformance_flat3 100
  norm_num at h
  exact h

/-- C1, counterexample: with the fractional principal 100.5 the first
projected record's `startValue` is `Math.round(100.5) = 101`, not the
asset's `initialAmount` itself. -/
theorem initializeYearlyPerformance_rounds_first_startValue :
    (initializeYearlyPerformance ⟨2024, 0, 1⟩ (some ⟨2024, 5, 1⟩) (201 / 2)
        RTS0).map (List.map YearlyPerformance.startValue) = some [101] ∧
    ((101 : ℚ) ≠ 201 / 2) := by
  constructor
  · have h1 : calculateYearPerformance 2024 (201 / 2) RTS0 =
        some ⟨2024, 101, 101, 0, [⟨⟨2024, 0, 1⟩, 0⟩], 0,
          none, none, none, none⟩ := by
      simp [calculateYearPerformance, RTS0, calculateCapitalGain,
        calculateDividends, List.range_succ]
      norm_num [round_eq]
    have h0 : initializeYearlyPerformance ⟨2024, 0, 1⟩ (some ⟨2024, 5, 1⟩)
        (201 / 2) RTS0 = projectYears RTS0 2024 1 (201 / 2) := rfl
    rw [h0, show (1 : ℕ) = 0 + 1 from rfl, projectYears_succ, h1]
    simp [projectYears_zero]
  · norm_num

/-- Witness for C1's amended theorem on the two-year fixture projection. -/
theorem initializeYearlyPerformance_chain_witness :
    (flatRecord 2025 100).startValue = (flatRecord 2024 100).endValue ∧
    (flatRecord 2024 100).startValue = round (((100 : ℤ) : ℚ)) := by
  have hinit : initializeYearlyPerformance ⟨2024, 0, 1⟩ (some ⟨2025, 0, 1⟩)
      (((100 : ℤ) : ℚ)) RTS0 =
      some [flatRecord 2024 100, flatRecord 2025 100] := by
    have h : initializeYearlyPerformance ⟨2024, 0, 1⟩ (some ⟨2025, 0, 1⟩)
        (((100 : ℤ) : ℚ)) RTS0 = projectYears RTS0 2024 2 (((100 : ℤ) : ℚ)) := rfl
    rw [h, projectYears_RTS0 100 2 2024]
    norm_num [List.range_succ]
  have H := initializeYearlyPerformance_chain ⟨2024, 0, 1⟩ (some ⟨2025, 0, 1⟩)
    (((100 : ℤ) : ℚ)) RTS0 [flatRecord 2024 100, flatRecord 2025 100] hinit
  exact ⟨H.1 0 (flatRecord 2024 100) (flatRecord 2025 100) rfl rfl,
    H.2 (flatRecord 2024 100) rfl⟩

/-- The reconciler patch preserves the list length. -/
theorem patchYearlyPerformance_length (year : ℤ) (ad : ActualData) :
    ∀ l, (patchYearlyPerformance year ad l).length = l.length := by
  intro l
  induction l with
  | nil => rfl
  | cons p rest ih =>
    by_cases h : p.year = year <;> simp [patchYearlyPerformance, h, ih]

/-- Record-wise frame property of the reconciler patch: every position keeps
its projected fields, and a position whose year differs from the target is
untouched. -/
theorem patchYearlyPerformance_get (year : ℤ) (ad : ActualData) :
    ∀ (l : List YearlyPerformance) (i : ℕ) (p q : YearlyPerformance),
      l.get? i = some p → (patchYearlyPerformance year ad l).get? i = some q →
      (q.year = p.year ∧ q.startValue = p.startValue ∧ q.endValue = p.endValue ∧
        q.capitalGains = p.capitalGains ∧ q.dividends = p.dividends ∧
        q.totalDividends = p.totalDividends) ∧
      (p.year ≠ year → q = p) := by
  intro l
  induction l with
  | nil => intro i p q hp _; simp at hp
  | cons r rest ih =>
    intro i p q hp hq
    by_cases h : r.year = year
    · simp only [patchYearlyPerformance, if_pos h] at hq
      cases i with
      | zero =>
        simp only [List.get?, Option.some.injEq] at hp hq
        subst hp
        subst hq
        exact ⟨⟨rfl, rfl, rfl, rfl, rfl, rfl⟩, fun hne => absurd h hne⟩
      | succ j =>
        simp only [List.get?] at hp hq
        rw [hp] at hq
        simp only [Option.some.injEq] at hq
        subst hq
        exact ⟨⟨rfl, rfl, rfl, rfl, rfl, rfl⟩, fun _ => rfl⟩
    · simp only [patchYearlyPerformance, if_neg h] at hq
      cases i with
      | zero =>
        simp only [List.get?, Option.some.injEq] at hp hq
        subst hp
        subst hq
        exact ⟨⟨rfl, rfl, rfl, rfl, rfl, rfl⟩, fun _ => rfl⟩
      | succ j =>
        simp only [List.get?] at hp hq
        exact ih j p q hp hq

/-- If no record carries the target year, the reconciler patch is the
identity. -/
theorem patchYearlyPerformance_noop (year : ℤ) (ad : ActualData) :
    ∀ l, (∀ p ∈ l, p.year ≠ year) → patchYearlyPerformance year ad l = l := by
  intro l
  induction l with
  | nil => intro _; rfl
  | cons r rest ih =>
    intro hl
    have hr : r.year ≠ year := hl r (List.mem_cons_self r rest)
    simp [patchYearlyPerformance, hr,
      ih fun p hp => hl p (List.mem_cons_of_mem r hp)]

/-- The reconciler patch rewrites exactly the first record carrying the
target year, replacing it by the actual-field merge. -/
theorem patchYearlyPerformance_first (year : ℤ) (ad : ActualData) :
    ∀ (l₁ : List YearlyPerformance) (p : YearlyPerformance)
      (l₂ : List YearlyPerformance),
      (∀ q ∈ l₁, q.year ≠ year) → p.year = year →
      patchYearlyPerformance year ad (l₁ ++ p :: l₂) =
        l₁ ++ setActualFields p ad :: l₂ := by
  intro l₁
  induction l₁ with
  | nil => intro p l₂ _ hp; simp [patchYearlyPerformance, hp]
  | cons r rest ih =>
    intro p l₂ hq hp
    have hr : r.year ≠ year := hq r (List.mem_cons_self r rest)
    simp only [List.cons_append, patchYearlyPerformance, if_neg hr,
      List.append_eq]
    rw [ih p l₂ (fun q hmem => hq q (List.mem_cons_of_mem r hmem)) hp]

/-- C6: reconciliation isolation.  `updateActualPerformance` only rewrites
the `yearlyPerformance` entry matching the target year: all other asset
fields are untouched, the list keeps its length, every record keeps its
projected fields, records with a different year are byte-for-byte
unchanged, the patch is a silent no-op when no record matches, and the
first matching record gets exactly its `actual*` fields set to the
payload's values. -/
theorem updateActualPerformance_isolation (a : Asset) (year : ℤ)
    (ad : ActualData) :
    (updateActualPerformance a year ad).id = a.id ∧
    (updateActualPerformance a year ad).name = a.name ∧
    (updateActualPerformance a year ad).category = a.category ∧
    (updateActualPerformance a year ad).startDate = a.startDate ∧
    (updateActualPerformance a year ad).maturityDate = a.maturityDate ∧
    (updateActualPerformance a year ad).initialAmount = a.initialAmount ∧
    (updateActualPerformance a year ad).returns = a.returns ∧
    (updateActualPerformance a year ad).yearlyPerformance.length =
      a.yearlyPerformance.length ∧
    (∀ i p q, a.yearlyPerformance.get? i = some p →
      (updateActualPerformance a year ad).yearlyPerformance.get? i = some q →
      (q.year = p.year ∧ q.startValue = p.startValue ∧ q.endValue = p.endValue ∧
        q.capitalGains = p.capitalGains ∧ q.dividends = p.dividends ∧
        q.totalDividends = p.totalDividends) ∧
      (p.year ≠ year → q = p)) ∧
    ((∀ p ∈ a.yearlyPerformance, p.year ≠ year) →
      updateActualPerformance a year ad = a) ∧
    (∀ l₁ p l₂, a.yearlyPerformance = l₁ ++ p :: l₂ →
      (∀ q ∈ l₁, q.year ≠ year) → p.year = year →
      (updateActualPerformance a year ad).yearlyPerformance =
        l₁ ++ { p with
          actualEndValue := some ad.endValue
          actualCapitalGains := some ad.capitalGains
          actualDividends := some ad.dividends
          actualTotalDividends := some ad.totalDividends } :: l₂) := by
  refine ⟨rfl, rfl, rfl, rfl, rfl, rfl, rfl,
    patchYearlyPerformance_length year ad a.yearlyPerformance,
    fun i p q hp hq =>
      patchYearlyPerformance_get year ad a.yearlyPerformance i p q hp hq,
    fun hnone => ?_, fun l₁ p l₂ hsplit hq hp => ?_⟩
  · unfold updateActualPerformance
    rw [patchYearlyPerformance_noop year ad a.yearlyPerformance hnone]
  · show patchYearlyPerformance year ad a.yearlyPerformance = _
    rw [hsplit, patchYearlyPerformance_first year ad l₁ p l₂ hq hp]
    rfl

/-- Witness for C6: a non-matching year leaves `asset0` unchanged, and
patching 2025 rewrites exactly the middle record. -/
theorem updateActualPerformance_isolation_witness :
    updateActualPerformance asset0 1999 AD0 = asset0 ∧
    (updateActualPerformance asset0 2025 AD0).yearlyPerformance =
      [flatRecord 2024 100] ++ { flatRecord 2025 100 with
        actualEndValue := some AD0.endValue
        actualCapitalGains := some AD0.capitalGains
        actualDividends := some AD0.dividends
        actualTotalDividends := some AD0.totalDividends } :: [flatRecord 2026 100] :=
  ⟨(updateActualPerformance_isolation asset0 1999 AD0).2.2.2.2.2.2.2.2.2.1
      (by decide),
   (updateActualPerformance_isolation asset0 2025 AD0).2.2.2.2.2.2.2.2.2.2
      [flatRecord 2024 100] (flatRecord 2025 100) [flatRecord 2026 100]
      rfl (by decide) rfl⟩

/-- C7, counterexample: a payload whose `maturityDate` key is present with
value `undefined` removes the maturity from the merged asset (spread
overwrite) but fails the `data.maturityDate !== undefined` recompute guard,
so the stale 3-record projection is kept even though a full re-projection
of the merged fields would have 51 records. -/
theorem applyUpdate_undefined_maturity_skips_recompute :
    (applyUpdate asset0 { maturityDate := .undef }).map
        (fun a => (a.maturityDate, a.yearlyPerformance.length)) =
      some (none, 3) ∧
    (initializeYearlyPerformance asset0.startDate none asset0.initialAmount
        asset0.returns).map List.length = some 51 ∧
    (3 : ℕ) ≠ 51 := by
  refine ⟨rfl, ?_, by decide⟩
  have h0 : initializeYearlyPerformance asset0.startDate none
      asset0.initialAmount asset0.returns = projectYears RTS0 2024 51 100 := rfl
  rw [h0, show (100 : ℚ) = ((100 : ℤ) : ℚ) from by norm_num,
    projectYears_RTS0 100 51 2024]
  simp

/-- C7, amended: whenever the recompute guard fires (one of `initialAmount`,
`returns`, `startDate`, `maturityDate` supplied with a defined value), the
updated asset's `yearlyPerformance` is exactly the fresh projection of its
own merged `startDate`, `maturityDate`, `initialAmount` and `returns` — a
fully replaced sequence, not a patch of the old one. -/
theorem applyUpdate_recomputes_projection (a : Asset) (d : UpdateData)
    (a' : Asset) (h : applyUpdate a d = some a')
    (ht : triggersRecompute d = true) :
    initializeYearlyPerformance a'.startDate a'.maturityDate a'.initialAmount
      a'.returns = some a'.yearlyPerformance := by
  simp only [applyUpdate, ht, if_true] at h
  cases hI : initializeYearlyPerformance (d.startDate.getD a.startDate)
      (mergeMaturity a.maturityDate d.maturityDate)
      (d.initialAmount.getD a.initialAmount) (d.returns.getD a.returns) with
  | none => rw [hI] at h; cases h
  | some yp =>
    rw [hI] at h
    simp only [Option.map_some', Option.some.injEq] at h
    subst h
    simpa using hI

/-- Witness for C7's amended theorem: editing `asset0`'s `initialAmount`
to 200 yields `asset1`, whose stored sequence is the fresh projection. -/
theorem applyUpdate_recomputes_projection_witness :
    initializeYearlyPerformance asset1.startDate asset1.maturityDate
      asset1.initialAmount asset1.returns = some asset1.yearlyPerformance :=
  applyUpdate_recomputes_projection asset0 updateW asset1
    (by
      have h2 : applyUpdate asset0 updateW =
          (initializeYearlyPerformance ⟨2024, 0, 1⟩ (some ⟨2026, 0, 1⟩) 200
            RTS0).map
            (fun yp => { asset0 with
              initialAmount := 200
              yearlyPerformance := yp }) := rfl
      rw [h2, show (200 : ℚ) = ((200 : ℤ) : ℚ) from by norm_num,
        initializeYearlyPerformance_flat3 200]
      rfl)
    (by decide)

/-- C8, counterexample: invoked with `years = 0` on an existing asset, the
simulator performs no parameter validation and returns a full
`SimulationResult` (single-point paths, all three percentiles defined) —
not an `InvalidParameterError` or any other failure. -/
theorem runMonteCarloSimulation_zero_years_returns_result :
    runMonteCarloSimulation [("a1", asset0)] "a1" 0 1 (fun q => q)
      (fun _ _ => 0) =
      (some ⟨some 100, some 100, some 100, [[100]]⟩, [("a1", asset0)]) := by
  have hlook : List.lookup "a1" [("a1", asset0)] = some asset0 := rfl
  simp only [runMonteCarloSimulation, hlook]
  norm_num [mcPath, mcValue, sortAscending, insertAscending, getPercentile,
    getPercentileIndex, List.range_succ, asset0]

/-- C8, amended: `runMonteCarloSimulation` never validates `years` or
`iterations`: on an existing asset with `years ≤ 0` or `iterations ≤ 0` it
still returns a `SimulationResult` (never an error), leaves the store
unchanged, returns all-`undefined` percentiles and no paths when
`iterations ≤ 0`, and returns one single-point path `[initialAmount]` per
iteration when `years ≤ 0`. -/
theorem runMonteCarloSimulation_no_validation
    (assets : List (String × Asset)) (assetId : String) (asset : Asset)
    (years iterations : ℤ) (expF : ℚ → ℚ) (normal : ℕ → ℕ → ℚ)
    (hlook : List.lookup assetId assets = some asset)
    (h : years ≤ 0 ∨ iterations ≤ 0) :
    ((runMonteCarloSimulation assets assetId years iterations expF
        normal).1.isSome = true) ∧
    (runMonteCarloSimulation assets assetId years iterations expF
        normal).2 = assets ∧
    (iterations ≤ 0 →
      (runMonteCarloSimulation assets assetId years iterations expF
          normal).1 = some ⟨none, none, none, []⟩) ∧
    (years ≤ 0 →
      ((runMonteCarloSimulation assets assetId years iterations expF
          normal).1).map SimulationResult.paths =
        some (List.replicate iterations.toNat [asset.initialAmount])) := by
  refine ⟨?_, ?_, fun hi => ?_, fun hy => ?_⟩
  · simp only [runMonteCarloSimulation, hlook]
    rfl
  · simp only [runMonteCarloSimulation, hlook]
  · simp only [runMonteCarloSimulation, hlook, Int.toNat_of_nonpos hi]
    rfl
  · simp only [runMonteCarloSimulation, hlook, Int.toNat_of_nonpos hy]
    have hpath : ∀ i : ℕ,
        mcPath expF (normal i) asset.returns.capitalGain.annualRate
          asset.initialAmount 0 = [asset.initialAmount] := fun i => rfl
    simp [hpath, List.map_const']

/-- Witness for C8's amended theorem: two iterations over zero years yield
two single-point paths. -/
theorem runMonteCarloSimulation_no_validation_witness :
    ((runMonteCarloSimulation [("a1", asset0)] "a1" 0 2 (fun q => q)
        (fun _ _ => 0)).1).map SimulationResult.paths =
      some (List.replicate (2 : ℤ).toNat [asset0.initialAmount]) :=
  (runMonteCarloSimulation_no_validation [("a1", asset0)] "a1" asset0 0 2
    (fun q => q) (fun _ _ => 0) rfl (Or.inl (by decide))).2.2.2 (by decide)

end AssetStore
